import Mathlib

/-!
# Verification of the web-toolkit fetch client's retry/timeout/cancellation core

Shallow embedding of `src/fetch-client.ts` (`createFetchClient`): the retry
orchestrator `requestWithRetry`, the cancellation composer `composeSignal`,
and the pure helpers `resolveRetry`, `parseRetryAfter`, `backoffDelay`,
`parseResponse`.

Modelling conventions:
* JavaScript numbers used for delays, timestamps and jitter are modelled as
  rationals (`ℚ`); `Math.floor` is `Int.floor`; `Math.random()` results are
  an explicit parameter `rand` with `0 ≤ rand < 1`.
* Errors are modelled by their `name` field only, which is all
  `isAbortError` inspects.
* The asynchronous environment (transport outcomes, hook behaviour, and the
  moments at which the composed cancellation signal fires) is an explicit
  oracle: one `AttemptScript` per loop iteration.
* DOM facts used by the embedding: `fetch` invoked with an aborted signal
  rejects with the signal's abort reason; `AbortController.abort()` without
  an argument produces a reason named `AbortError`; an `abort` listener
  added to a signal that is *already* aborted is never invoked (the event
  fired before registration).
-/

/-- A JavaScript error value, reduced to the only field the orchestrator
inspects: its `name`. -/
structure Err where
  name : String
deriving Repr, DecidableEq

/-- The default abort reason: a `DOMException` named `AbortError`.  Produced
by `AbortController.abort()` with no argument and by `sleep`'s rejection. -/
def abortErr : Err := ⟨"AbortError"⟩

/-- The fallback error constructed at the (normally unreachable) end of the
loop in `requestWithRetry`: `new Error('Request failed')`. -/
def genericError : Err := ⟨"Error"⟩

/-- `isAbortError` from fetch-client.ts: classifies an error as an abort by
its `name === 'AbortError'`. -/
def isAbortError (e : Err) : Bool := e.name == "AbortError"

/-- The resolved retry policy record (`RetryOptions` in fetch-client.ts). -/
structure RetryOptions where
  retries : Nat
  statusCodes : List Nat
  methods : List String
  factor : ℚ
  minDelay : ℚ
  maxDelay : ℚ
  jitter : ℚ
  respectRetryAfterHeader : Bool
deriving Repr, DecidableEq

/-- A per-request override object (`Partial<RetryOptions>` in
fetch-client.ts): every field optional. -/
structure RetryOverride where
  retries : Option Nat := none
  statusCodes : Option (List Nat) := none
  methods : Option (List String) := none
  factor : Option ℚ := none
  minDelay : Option ℚ := none
  maxDelay : Option ℚ := none
  jitter : Option ℚ := none
  respectRetryAfterHeader : Option Bool := none
deriving Repr, DecidableEq

/-- The dynamic `retry` option: `boolean | number | Partial<RetryOptions>`. -/
inductive RetrySetting where
  | bool (b : Bool)
  | num (n : Nat)
  | obj (p : RetryOverride)
deriving Repr, DecidableEq

/-- `DEFAULT_RETRY` from fetch-client.ts. -/
def DEFAULT_RETRY : RetryOptions :=
  { retries := 2
    statusCodes := [408, 425, 429, 500, 502, 503, 504]
    methods := ["GET", "HEAD"]
    factor := 2
    minDelay := 300
    maxDelay := 2000
    jitter := 1/4
    respectRetryAfterHeader := true }

/-- `{ ...base, ...source }`: field-wise override of a `RetryOptions`
record by a partial object. -/
def applyOverride (base : RetryOptions) (p : RetryOverride) : RetryOptions :=
  { retries := p.retries.getD base.retries
    statusCodes := p.statusCodes.getD base.statusCodes
    methods := p.methods.getD base.methods
    factor := p.factor.getD base.factor
    minDelay := p.minDelay.getD base.minDelay
    maxDelay := p.maxDelay.getD base.maxDelay
    jitter := p.jitter.getD base.jitter
    respectRetryAfterHeader := p.respectRetryAfterHeader.getD base.respectRetryAfterHeader }

/-- JavaScript's `toUpperCase()`, character-wise (HTTP method names are
ASCII, on which `Char.toUpper` agrees with JavaScript).  Defined by
structural recursion over the character list so it evaluates by kernel
reduction. -/
def jsToUpper (s : String) : String := ⟨s.data.map Char.toUpper⟩

/-- `normalizeMethod` from fetch-client.ts: `m ? m.toUpperCase() : 'GET'`
(`undefined` and the empty string are falsy). -/
def normalizeMethod (m : Option String) : String :=
  match m with
  | none => "GET"
  | some s => if s = "" then "GET" else jsToUpper s

/-- `typeof reqRetry === 'undefined' ? defaultRetry : reqRetry`. -/
def sourceOf (defaultRetry reqRetry : Option RetrySetting) : Option RetrySetting :=
  match reqRetry with
  | none => defaultRetry
  | some r => some r

/-- JavaScript falsiness of the retry source checked by
`if (!source) return undefined`: `false` and the number `0` are falsy. -/
def falsySetting : RetrySetting → Bool
  | .bool false => true
  | .num 0 => true
  | _ => false

/-- The `base` record built by `resolveRetry` before method gating:
defaults, a retry-count override, or a field-wise merge. -/
def mergedBase (src : RetrySetting) : RetryOptions :=
  match src with
  | .bool _ => DEFAULT_RETRY
  | .num n => { DEFAULT_RETRY with retries := n }
  | .obj p => applyOverride DEFAULT_RETRY p

/-- `resolveRetry` from fetch-client.ts: resolve the dynamic retry setting
to a policy, then drop the policy entirely when the uppercased method is
not listed in a nonempty `methods` list. -/
def resolveRetry (defaultRetry : Option RetrySetting) (method : Option String)
    (reqRetry : Option RetrySetting) : Option RetryOptions :=
  match sourceOf defaultRetry reqRetry with
  | none => none
  | some src =>
    if falsySetting src then none
    else
      let base := mergedBase src
      let finalMethod := normalizeMethod method
      if base.methods ≠ [] ∧ finalMethod ∉ base.methods then none
      else some base

/-- Case-insensitive membership, following the specification's words
("case-insensitive compare against `retryableMethods`"): both sides are
uppercased before comparison.  Used only to compare the source's behaviour
against the spec's description. -/
def specCiMember (m : String) (l : List String) : Bool :=
  l.any fun x => jsToUpper x == jsToUpper m

/-- The `Retry-After` response header, abstracted to the cases
`parseRetryAfter` distinguishes: absent (or empty, which is falsy),
a numeric string (`Number(ra)` not NaN, value in seconds), an HTTP date
(epoch milliseconds), or an unparseable string. -/
inductive RetryAfterValue where
  | absent
  | numeric (secs : ℚ)
  | httpDate (epochMs : ℚ)
  | unparseable
deriving Repr, DecidableEq

/-- `parseRetryAfter` from fetch-client.ts, with string parsing abstracted
by `RetryAfterValue` and `Date.now()` passed as `now`. -/
def parseRetryAfter (v : RetryAfterValue) (now : ℚ) : Option ℚ :=
  match v with
  | .absent => none
  | .numeric secs => some (max 0 (secs * 1000))
  | .httpDate t => some (max 0 (t - now))
  | .unparseable => none

/-- `backoffDelay` from fetch-client.ts.  `rand` is the value returned by
`Math.random()`.  A zero `jitter` is falsy, so the raw delay is returned
unfloored; otherwise the jittered value is floored to an integer. -/
def backoffDelay (attempt : Nat) (r : RetryOptions) (rand : ℚ) : ℚ :=
  let raw := min r.maxDelay (r.minDelay * r.factor ^ (attempt - 1))
  if r.jitter = 0 then raw
  else
    let j := raw * r.jitter
    let lo := raw - j
    let hi := raw + j
    ((⌊lo + rand * (hi - lo)⌋ : ℤ) : ℚ)

/-- `Response.ok`: status in the inclusive range 200–299. -/
def isOkStatus (st : Nat) : Bool := decide (200 ≤ st ∧ st < 300)

/-- A firing of the composed cancellation signal: the timeout timer
expiring (`controller.abort()` with no reason) or the caller's signal
aborting (`controller.abort(baseSignal.reason)`). -/
inductive FireEvent where
  | timeoutFire
  | callerAbort (r : Err)
deriving Repr, DecidableEq

/-- The abort reason carried by the composed signal for a given firing:
the timeout produces the default `AbortError` reason, a caller abort
preserves the caller's reason. -/
def reasonOf : FireEvent → Err
  | .timeoutFire => abortErr
  | .callerAbort r => r

/-- What happens during one transport invocation: the response completes,
the transport fails with an ordinary error, or the composed signal fires
while the call is in flight (the transport then rejects with the signal's
abort reason). -/
inductive FetchEvent where
  | completes (status : Nat) (retryAfter : RetryAfterValue)
  | netError (e : Err)
  | signalFires (ev : FireEvent)
deriving Repr, DecidableEq

/-- The oracle for one iteration of the attempt loop: whether the
`beforeRequest` hook throws, what the transport does, whether the
`afterResponse` hook throws, whether the composed signal fires during the
backoff wait following this attempt, and the `Math.random()` draw used by
`backoffDelay` for this attempt. -/
structure AttemptScript where
  beforeThrows : Option Err
  duringFetch : FetchEvent
  afterThrows : Option Err
  fireDuringWait : Option FireEvent
  rand : ℚ
deriving Repr, DecidableEq

/-- How one iteration of the attempt loop ends: terminate with a result
(recording whether `cleanup()` was invoked on that exit path), or proceed
to the next attempt. -/
inductive StepOut where
  | done (r : Sum Nat Err) (clean : Bool)
  | next
deriving Repr, DecidableEq

/-- The observable effects of one iteration: how it ended, whether the
transport primitive was invoked, the duration passed to `sleep` (if any),
and the `lastError` update. -/
structure StepRes where
  out : StepOut
  fetched : Bool
  wait : Option ℚ
  err : Option Err
deriving Repr, DecidableEq

/-- The `catch` block of `requestWithRetry` (lines 501–514 of the source):
classify the error, and either terminate (with `cleanup()`) or back off and
continue.  `firedNow` records whether the composed signal has fired during
this very attempt (then the `await sleep` inside the catch block rejects at
once).  A rejection of that sleep is NOT caught by the surrounding
`try`/`catch` — it propagates out of `requestWithRetry` without `cleanup()`
running, which the model records as `clean := false`. -/
def stepCatch (pol : Option RetryOptions) (attempt total : Nat) (s : AttemptScript)
    (e : Err) (fetched : Bool) (firedNow : Bool) : StepRes :=
  if isAbortError e then
    ⟨.done (.inr e) true, fetched, none, some e⟩
  else
    match pol with
    | none => ⟨.done (.inr e) true, fetched, none, some e⟩
    | some P =>
      if total ≤ attempt then ⟨.done (.inr e) true, fetched, none, some e⟩
      else
        let delay := backoffDelay attempt P s.rand
        if firedNow ∨ s.fireDuringWait.isSome then
          ⟨.done (.inr abortErr) false, fetched, some delay, some e⟩
        else
          ⟨.next, fetched, some delay, some e⟩

/-- One iteration of the attempt loop of `requestWithRetry` (lines 476–515
of the source): run `beforeRequest`, the transport, `afterResponse`; return
the response when no policy is active or the response is terminal;
otherwise wait (cancellably) and continue.  A rejection of the in-`try`
sleep (line 494) is caught by the `catch` block, classified as an abort,
and rethrown after `cleanup()`. -/
def stepAttempt (pol : Option RetryOptions) (now : ℚ) (attempt total : Nat)
    (s : AttemptScript) : StepRes :=
  match s.beforeThrows with
  | some e => stepCatch pol attempt total s e false false
  | none =>
    match s.duringFetch with
    | .signalFires ev => stepCatch pol attempt total s (reasonOf ev) true true
    | .netError e => stepCatch pol attempt total s e true false
    | .completes st ra =>
      match s.afterThrows with
      | some e => stepCatch pol attempt total s e true false
      | none =>
        match pol with
        | none => ⟨.done (.inl st) true, true, none, none⟩
        | some P =>
          if isOkStatus st = false ∧ st ∈ P.statusCodes ∧ attempt < total then
            let retryAfter := if P.respectRetryAfterHeader then parseRetryAfter ra now else none
            let delay := retryAfter.getD (backoffDelay attempt P s.rand)
            if s.fireDuringWait.isSome then
              ⟨.done (.inr abortErr) true, true, some delay, some abortErr⟩
            else
              ⟨.next, true, some delay, none⟩
          else ⟨.done (.inl st) true, true, none, none⟩

/-- The terminal outcome of `requestWithRetry`: a returned response
(identified by its status) or a thrown error. -/
inductive RunResult where
  | success (status : Nat)
  | failure (e : Err)
deriving Repr, DecidableEq

/-- Resource/effect accounting for one logical request: transport
invocations, `cleanup()` invocations, timeout timers started, and the
durations passed to `sleep` between attempts. -/
structure RunStats where
  fetchCalls : Nat
  cleanupCalls : Nat
  timerStarts : Nat
  waits : List ℚ
deriving Repr, DecidableEq

/-- Record one `cleanup()` invocation. -/
def incClean (s : RunStats) : RunStats := { s with cleanupCalls := s.cleanupCalls + 1 }

/-- Fold one iteration's effects into the accounting. -/
def applyStep (s : RunStats) (st : StepRes) : RunStats :=
  { s with
    fetchCalls := s.fetchCalls + (if st.fetched then 1 else 0)
    waits := s.waits ++ st.wait.toList }

/-- Interpret a result of `stepAttempt` as a `RunResult`. -/
def toRunResult : Sum Nat Err → RunResult
  | .inl st => .success st
  | .inr e => .failure e

/-- The attempt loop of `requestWithRetry` (`for attempt = 1..totalAttempts`),
driven by one `AttemptScript` per iteration.  Falling off the end of the
loop reaches line 518: `cleanup(); throw lastError ?? new Error(...)`. -/
def loopGo (pol : Option RetryOptions) (now : ℚ) (total : Nat) :
    List AttemptScript → Nat → RunStats → Option Err → RunResult × RunStats
  | [], _, stats, lastErr =>
    (.failure (lastErr.getD genericError), incClean stats)
  | s :: rest, attempt, stats, lastErr =>
    if total < attempt then
      (.failure (lastErr.getD genericError), incClean stats)
    else
      let st := stepAttempt pol now attempt total s
      let stats' := applyStep stats st
      match st.out with
      | .done r true => (toRunResult r, incClean stats')
      | .done r false => (toRunResult r, stats')
      | .next => loopGo pol now total rest (attempt + 1) stats' (st.err.orElse fun _ => lastErr)

/-- JavaScript truthiness of an optional numeric timeout: present and
nonzero (negative numbers are truthy). -/
def truthyNum (t : Option ℚ) : Bool :=
  match t with
  | none => false
  | some x => decide (x ≠ 0)

/-- The static shape of `composeSignal`'s result: whether a composed signal
exists at all, and whether a timeout timer was started
(`if (timeoutMs && timeoutMs > 0) timeoutId = setTimeout(...)`). -/
structure ComposeOut where
  hasSignal : Bool
  timerStarted : Bool
deriving Repr, DecidableEq

/-- `composeSignal`'s acquisition behaviour (lines 440–457 of the source),
as seen by `requestWithRetry`: no signal when neither source is present,
otherwise a fresh controller with at most one timer. -/
def composeSignalModel (basePresent : Bool) (timeoutMs : Option ℚ) : ComposeOut :=
  if basePresent = false ∧ truthyNum timeoutMs = false then ⟨false, false⟩
  else ⟨true, match timeoutMs with | some t => decide (0 < t) | none => false⟩

/-- `requestWithRetry` (lines 459–520 of the source): compose the signal
once (`effectiveTimeout ?? defaultTimeout`), compute
`totalAttempts = (retryPolicy?.retries ?? 0) + 1`, and run the attempt
loop starting at attempt 1 with the timer accounted at acquisition time. -/
def requestWithRetry (defaultTimeout : Option ℚ) (basePresent : Bool)
    (effectiveTimeout : Option ℚ) (pol : Option RetryOptions) (now : ℚ)
    (scripts : List AttemptScript) : RunResult × RunStats :=
  let timeoutMs := effectiveTimeout.orElse fun _ => defaultTimeout
  let comp := composeSignalModel basePresent timeoutMs
  let total := (match pol with | some P => P.retries | none => 0) + 1
  loopGo pol now total scripts 1
    ⟨0, 0, if comp.timerStarted then 1 else 0, []⟩ none

/-- The caller-supplied `AbortSignal` as `composeSignal` sees it: whether
it is already aborted at composition time, and its abort reason. -/
structure CallerSig where
  abortedAtCompose : Bool
  reason : Err
deriving Repr, DecidableEq

/-- The resources acquired by `composeSignal`: a fresh (initially
non-aborted) controller, an `abort` listener on the caller's signal when
one is present, and a timer when the timeout is positive. -/
structure ComposedSig where
  hasSignal : Bool
  listenerAttached : Bool
  timerStarted : Bool
deriving Repr, DecidableEq

/-- `composeSignal` (lines 440–457 of the source) at acquisition time.
Note that the listener is registered with `addEventListener` WITHOUT first
checking `baseSignal.aborted`, and the fresh controller starts in the
non-aborted state. -/
def composeSignalDyn (base : Option CallerSig) (timeoutMs : Option ℚ) : ComposedSig :=
  if base.isNone ∧ truthyNum timeoutMs = false then ⟨false, false, false⟩
  else ⟨true, base.isSome, match timeoutMs with | some t => decide (0 < t) | none => false⟩

/-- A DOM event observable after composition.  Per the DOM specification a
signal fires its `abort` event exactly once, at the moment it becomes
aborted; a caller signal that was already aborted at composition time
therefore contributes NO `callerFires` event afterwards. -/
inductive DomEvent where
  | callerFires (r : Err)
  | timerFires
deriving Repr, DecidableEq

/-- The abort reason of the composed signal after a sequence of
post-composition events: the first event whose handler is actually
registered aborts the controller (`controller.abort` is a no-op once
aborted). `none` means the composed signal never became aborted. -/
def composedReasonAfter (c : ComposedSig) : List DomEvent → Option Err
  | [] => none
  | ev :: rest =>
    match ev with
    | .callerFires r => if c.listenerAttached then some r else composedReasonAfter c rest
    | .timerFires => if c.timerStarted then some abortErr else composedReasonAfter c rest

/-- The result of the `'json'` branch of `parseResponse`: either
`undefined` (no parse attempted) or the value of `JSON.parse(raw)`,
abstracted as the raw text it would be applied to. -/
inductive ParsedJson where
  | undef
  | parsedValue (raw : String)
deriving Repr, DecidableEq

/-- The `'json'` branch of `parseResponse` (lines 273–288 of the source):
status 204/205 short-circuits to `undefined` before reading the body; an
empty or whitespace-only body also yields `undefined`; only otherwise is
`JSON.parse` attempted. -/
def parseResponseJson (status : Nat) (body : String) : ParsedJson :=
  if status = 204 ∨ status = 205 then .undef
  else if body = "" ∨ body.trim.length = 0 then .undef
  else .parsedValue body

/-- The public operations of the client object (lines 636–650 of the
source) that take a response parser. -/
inductive ClientOp where
  | opJson
  | opText
  | opBlob
  | opArrayBuffer
  | opSafeJson
  | opSafeText
  | opSafeBlob
  | opSafeArrayBuffer
  | opGet
  | opPost
  | opPut
  | opPatch
  | opDel
deriving Repr, DecidableEq

/-- The built-in response parser kinds. -/
inductive ParserKind where
  | pjson
  | ptext
  | pblob
  | parrayBuffer
deriving Repr, DecidableEq

/-- The parser each public operation passes to `fetcher`/`safe`
(lines 638–650 of the source). -/
def opParser : ClientOp → ParserKind
  | .opJson => .pjson
  | .opText => .ptext
  | .opBlob => .pblob
  | .opArrayBuffer => .parrayBuffer
  | .opSafeJson => .pjson
  | .opSafeText => .ptext
  | .opSafeBlob => .pblob
  | .opSafeArrayBuffer => .parrayBuffer
  | .opGet => .pjson
  | .opPost => .pjson
  | .opPut => .pjson
  | .opPatch => .pjson
  | .opDel => .pjson

/-- The composed cancellation signal fires during attempt `attempt` of a
run with `total` attempts: either during the transport call itself, or
during the backoff wait that follows the attempt (which requires that a
wait is actually reached: a retryable non-ok response, a non-abort
transport error, a non-abort `afterResponse` failure, or a non-abort
`beforeRequest` failure, each with attempts remaining). -/
def firesInAttempt (P : RetryOptions) (attempt total : Nat) (s : AttemptScript)
    (ev : FireEvent) : Prop :=
  (s.beforeThrows = none ∧ s.duringFetch = .signalFires ev)
  ∨ (s.fireDuringWait = some ev ∧ attempt < total ∧
      ((s.beforeThrows = none ∧ s.afterThrows = none ∧
         ∃ st ra, s.duringFetch = .completes st ra ∧ isOkStatus st = false ∧
           st ∈ P.statusCodes)
       ∨ (s.beforeThrows = none ∧ ∃ e, s.duringFetch = .netError e ∧ isAbortError e = false)
       ∨ (s.beforeThrows = none ∧ (∃ st ra, s.duringFetch = .completes st ra) ∧
           ∃ e, s.afterThrows = some e ∧ isAbortError e = false)
       ∨ (∃ e, s.beforeThrows = some e ∧ isAbortError e = false)))

/-- A small policy used by the concrete runs below: one retry on 503,
unit delays, no jitter, no Retry-After handling. -/
def oneRetryPolicy : RetryOptions :=
  { retries := 1
    statusCodes := [503]
    methods := ["GET"]
    factor := 2
    minDelay := 1
    maxDelay := 1
    jitter := 0
    respectRetryAfterHeader := false }

/-- A policy with `retries = 0`. -/
def zeroRetryPolicy : RetryOptions :=
  { oneRetryPolicy with retries := 0 }

/-- A non-abort transport error. -/
def netErr : Err := ⟨"TypeError"⟩

/-- A non-abort error thrown by a hook. -/
def hookErr : Err := ⟨"HookBoom"⟩

/-- An uneventful successful attempt. -/
def okScript : AttemptScript :=
  ⟨none, .completes 200 .absent, none, none, 0⟩

/-- Attempt script: the transport fails with a network error, and the
composed signal aborts during the backoff wait that follows. -/
def leakScript : AttemptScript :=
  ⟨none, .netError netErr, none, some (.callerAbort abortErr), 0⟩

/-- The concrete run exhibiting the cleanup leak: a retryable network
failure followed by an abort during the catch-block backoff wait. -/
def leakRun : RunResult × RunStats :=
  requestWithRetry none true none (some oneRetryPolicy) 0 [leakScript, okScript]

/-- Attempt script for the hook-failure runs: `beforeRequest` throws. -/
def hookThrowScript : AttemptScript :=
  ⟨some hookErr, .completes 200 .absent, none, none, 0⟩

/-- The concrete run showing a hook failure being retried: the
`beforeRequest` hook throws on attempt 1, attempt 2 succeeds. -/
def hookRetryRun : RunResult × RunStats :=
  requestWithRetry none false none (some oneRetryPolicy) 0 [hookThrowScript, okScript]

/-- The concrete run showing a `retries = 0` policy performing zero
transport invocations when the pre-attempt hook throws. -/
def zeroRetryHookRun : RunResult × RunStats :=
  requestWithRetry none false none (some zeroRetryPolicy) 0 [hookThrowScript]

/-- A retry override that limits retryable methods to the lowercase string
`"get"`. -/
def lowercaseGetOverride : RetryOverride := { methods := some ["get"] }

/-- A policy whose jittered delay is floored below `raw × (1 − jitter)`:
`raw = 10`, `jitter = 1/4`. -/
def jitterPolicy : RetryOptions :=
  { retries := 0
    statusCodes := []
    methods := []
    factor := 2
    minDelay := 10
    maxDelay := 10
    jitter := 1/4
    respectRetryAfterHeader := false }

/-- A caller signal that is already aborted when `composeSignal` runs. -/
def preAbortedCaller : CallerSig := ⟨true, ⟨"UserAbort"⟩⟩

/-- Attempt `s` fails with hook error `e`: either the `beforeRequest` hook
throws (the transport is not reached), or the transport completes and the
`afterResponse` hook throws. -/
def hookFailure (s : AttemptScript) (e : Err) : Prop :=
  s.beforeThrows = some e ∨
  (s.beforeThrows = none ∧ (∃ st ra, s.duringFetch = .completes st ra) ∧
    s.afterThrows = some e)

/-- Attempt script: the transport completes and the `afterResponse` hook
throws a non-abort error. -/
def afterThrowScript : AttemptScript :=
  ⟨none, .completes 200 .absent, some hookErr, none, 0⟩

/-- A retry override whose `methods` list is empty: the
`base.methods.length` guard at line 393 is then falsy, so method gating is
skipped entirely and the policy stays active for every method.  (`retries`
and `jitter` are also overridden to keep the resolved record's rationals
integer-valued.) -/
def emptyMethodsOverride : RetryOverride :=
  { retries := some 1, methods := some [], jitter := some 0 }

/-- An uneventful retryable 503 response. -/
def retryable503Script : AttemptScript :=
  ⟨none, .completes 503 .absent, none, none, 0⟩

/-- Attempt script used by witnesses: a retryable 503 response followed by
the timeout firing during the backoff wait. -/
def timeoutDuringWaitScript : AttemptScript :=
  ⟨none, .completes 503 .absent, none, some .timeoutFire, 0⟩

/-- A policy honouring the Retry-After header, with one retry on 503. -/
def hintPolicy : RetryOptions :=
  { oneRetryPolicy with respectRetryAfterHeader := true }

/-- Attempt script carrying a numeric Retry-After hint of 2 seconds on a
retryable 503 response. -/
def hintScript : AttemptScript :=
  ⟨none, .completes 503 (.numeric 2), none, none, 0⟩

/-- The attempt loop only ever adds to the accounting: the final statistics
extend the entry statistics by some number of transport calls (bounded by
the attempts remaining), some cleanup calls, and some appended waits; the
timer count is never touched inside the loop. -/
theorem loopGo_stats_shape (pol : Option RetryOptions) (now : ℚ) (total : Nat) :
    ∀ (scripts : List AttemptScript) (attempt : Nat) (stats : RunStats)
      (le : Option Err), ∃ f c w,
      (loopGo pol now total scripts attempt stats le).2 =
        { fetchCalls := stats.fetchCalls + f
          cleanupCalls := stats.cleanupCalls + c
          timerStarts := stats.timerStarts
          waits := stats.waits ++ w } ∧ f ≤ total + 1 - attempt := by
  intro scripts
  induction scripts with
  | nil =>
    intro attempt stats le
    exact ⟨0, 1, [], by simp [loopGo, incClean], by omega⟩
  | cons s rest ih =>
    intro attempt stats le
    by_cases h : total < attempt
    · exact ⟨0, 1, [], by simp [loopGo, h, incClean], by omega⟩
    · rcases hst : stepAttempt pol now attempt total s with ⟨out, fetched, wait, err⟩
      cases out with
      | done r clean =>
        refine ⟨(if fetched then 1 else 0), (if clean then 1 else 0), wait.toList, ?_, ?_⟩
        · cases clean <;>
            simp [loopGo, h, hst, applyStep, incClean]
        · split <;> omega
      | next =>
        obtain ⟨f, c, w, hshape, hf⟩ :=
          ih (attempt + 1) (applyStep stats ⟨.next, fetched, wait, err⟩)
            (err.orElse fun _ => le)
        refine ⟨(if fetched then 1 else 0) + f, c, wait.toList ++ w, ?_, ?_⟩
        · simp only [loopGo, hst, if_neg h]
          rw [hshape]
          simp [applyStep, Nat.add_assoc]
        · have : (if fetched then 1 else 0) ≤ 1 := by split <;> omega
          omega

/-- `requestWithRetry` level corollary of the shape lemma: the final
statistics start from zero, never exceed `retries + 1` transport calls,
and carry exactly the timer count fixed at composition time. -/
theorem requestWithRetry_stats_shape (defT : Option ℚ) (bp : Bool) (effT : Option ℚ)
    (pol : Option RetryOptions) (now : ℚ) (scripts : List AttemptScript) :
    ∃ f c w, (requestWithRetry defT bp effT pol now scripts).2 =
      { fetchCalls := f, cleanupCalls := c
        timerStarts :=
          if (composeSignalModel bp (effT.orElse fun _ => defT)).timerStarted then 1 else 0
        waits := w } ∧
      f ≤ (match pol with | some P => P.retries | none => 0) + 1 := by
  obtain ⟨f, c, w, h, hf⟩ := loopGo_stats_shape pol now
    ((match pol with | some P => P.retries | none => 0) + 1) scripts 1
    { fetchCalls := 0, cleanupCalls := 0
      timerStarts :=
        if (composeSignalModel bp (effT.orElse fun _ => defT)).timerStarted then 1 else 0
      waits := [] } none
  refine ⟨f, c, w, ?_, by omega⟩
  simpa [requestWithRetry] using h

/-- The attempt loop only appends to the recorded wait durations. -/
theorem loopGo_waits_extend (pol : Option RetryOptions) (now : ℚ) (total : Nat)
    (scripts : List AttemptScript) (attempt : Nat) (stats : RunStats) (le : Option Err) :
    ∃ w, (loopGo pol now total scripts attempt stats le).2.waits = stats.waits ++ w := by
  obtain ⟨f, c, w, h, _⟩ := loopGo_stats_shape pol now total scripts attempt stats le
  exact ⟨w, by rw [h]⟩

/-- If the first executed attempt passes duration `d` to `sleep` and no
wait was recorded before, then `d` is the first recorded wait duration of
the whole run. -/
theorem loopGo_first_wait (pol : Option RetryOptions) (now : ℚ) (total : Nat)
    (s : AttemptScript) (rest : List AttemptScript) (attempt : Nat)
    (stats : RunStats) (le : Option Err) (d : ℚ)
    (hna : ¬ total < attempt)
    (hw : (stepAttempt pol now attempt total s).wait = some d)
    (hwaits : stats.waits = []) :
    (loopGo pol now total (s :: rest) attempt stats le).2.waits.head? = some d := by
  rcases hst : stepAttempt pol now attempt total s with ⟨out, fetched, wait, err⟩
  rw [hst] at hw
  simp only at hw
  subst hw
  cases out with
  | done r clean =>
    cases clean <;> simp [loopGo, if_neg hna, hst, applyStep, incClean, hwaits]
  | next =>
    obtain ⟨w, hw2⟩ := loopGo_waits_extend pol now total rest (attempt + 1)
      (applyStep stats ⟨.next, fetched, some d, err⟩) (err.orElse fun _ => le)
    simp only [loopGo, if_neg hna, hst]
    rw [hw2]
    simp [applyStep, hwaits]

/-- When the case-insensitive comparison (both sides uppercased) rejects
membership, literal membership is rejected as well. -/
theorem specCiMember_false_not_mem (m : String) (l : List String)
    (h : specCiMember m l = false) : m ∉ l := by
  intro hm
  unfold specCiMember at h
  rw [List.any_eq_false] at h
  simpa using h m hm

/-- Claim C1 (code bug): the claim states that the cancellation resources
are released by `cleanup()` on every exit path, including an abort arriving
during a backoff wait.  The code violates this: when a non-abort transport
failure is followed by an abort during the backoff wait, the `await sleep`
inside the `catch` block rejects, the rejection propagates out of
`requestWithRetry` uncaught, and `cleanup()` is never invoked.  This run
evaluates the model at that failing input: attempt 1 fails with a network
error, the composed signal aborts during the ensuing wait, the abort
failure propagates, and the cleanup count is zero. -/
theorem claim_c1_cleanup_skipped_on_abort_during_error_backoff :
    leakScript.duringFetch = .netError netErr ∧
    leakScript.fireDuringWait = some (.callerAbort abortErr) ∧
    leakRun.1 = .failure abortErr ∧
    leakRun.2.fetchCalls = 1 ∧
    leakRun.2.cleanupCalls = 0 := by
  decide

/-- Claim C2 counterexample: the claim states that a hook failure
propagates immediately and is never followed by a transport invocation.
In this run the `beforeRequest` hook throws a non-abort error on attempt 1,
yet the orchestrator retries: attempt 2 invokes the transport, which
succeeds, and the run returns the 200 response instead of propagating the
hook failure. -/
theorem claim_c2_hook_failure_retried_cex :
    hookThrowScript.beforeThrows = some hookErr ∧
    hookRetryRun.1 = .success 200 ∧
    hookRetryRun.2.fetchCalls = 1 := by
  decide

/-- Claim C4 counterexample: the claim states that a policy with
`retries = 0` performs exactly one transport invocation regardless of the
attempt's outcome.  When the `beforeRequest` hook throws, the attempt's
transport call is never reached: zero transport invocations occur. -/
theorem claim_c4_zero_retries_zero_fetches_cex :
    zeroRetryPolicy.retries = 0 ∧
    zeroRetryHookRun.1 = .failure hookErr ∧
    zeroRetryHookRun.2.fetchCalls = 0 := by
  decide

/-- Claim C6 counterexample, exhibiting both divergences from the claim.
First, the comparison is not case-insensitive: with the override
`methods := ["get"]` and request method `"GET"`, the case-insensitive
comparison finds a member, yet `resolveRetry` drops the policy — the code
uppercases only the request method and compares case-sensitively.  Second,
the non-membership direction fails for an empty list: with
`methods := []`, `"POST"` is not a member under any comparison, yet the
falsy `base.methods.length` guard skips the gate, the policy stays active,
and a retryable 503 is retried (two transport invocations, not one). -/
theorem claim_c6_method_gating_divergences_cex :
    (resolveRetry none (some "GET") (some (.obj lowercaseGetOverride)) = none ∧
     specCiMember "GET" ["get"] = true) ∧
    (specCiMember "POST" ([] : List String) = false ∧
     resolveRetry none (some "POST") (some (.obj emptyMethodsOverride)) =
       some { DEFAULT_RETRY with retries := 1, methods := [], jitter := 0 } ∧
     (requestWithRetry none false none
        (resolveRetry none (some "POST") (some (.obj emptyMethodsOverride))) 0
        [retryable503Script, retryable503Script]).2.fetchCalls = 2) := by
  decide

/-- Claim C7 counterexample: the claim states that with jitter `j` the
returned delay lies within `[raw × (1 − j), raw × (1 + j)]`.  With
`raw = 10`, `j = 1/4` and a random draw of `0`, the code floors
`7.5` to `7`, which is strictly below the claimed lower bound `7.5`. -/
theorem claim_c7_jitter_floor_below_lower_bound_cex :
    0 < jitterPolicy.jitter ∧ jitterPolicy.jitter ≤ 1 ∧
    jitterPolicy.minDelay ≤ jitterPolicy.maxDelay ∧ 1 ≤ jitterPolicy.factor ∧
    backoffDelay 1 jitterPolicy 0 = 7 ∧
    backoffDelay 1 jitterPolicy 0 <
      min jitterPolicy.maxDelay (jitterPolicy.minDelay * jitterPolicy.factor ^ (1 - 1)) *
        (1 - jitterPolicy.jitter) := by
  refine ⟨by norm_num [jitterPolicy], by norm_num [jitterPolicy],
    by norm_num [jitterPolicy], by norm_num [jitterPolicy], ?_, ?_⟩
  · norm_num [backoffDelay, jitterPolicy]
  · norm_num [backoffDelay, jitterPolicy]

/-- Claim C9 (code bug): the claim states the composed signal becomes
aborted whenever the caller signal is aborted, *including* a caller signal
already aborted at composition time.  `composeSignal` registers its abort
listener with `addEventListener` without checking `baseSignal.aborted`;
since an already-aborted signal's `abort` event fired before registration,
no event is ever delivered and the composed signal stays non-aborted. -/
theorem claim_c9_pre_aborted_caller_not_mirrored :
    preAbortedCaller.abortedAtCompose = true ∧
    (composeSignalDyn (some preAbortedCaller) none).hasSignal = true ∧
    (composeSignalDyn (some preAbortedCaller) none).listenerAttached = true ∧
    composedReasonAfter (composeSignalDyn (some preAbortedCaller) none) [] = none := by
  decide

/-- Claim C10: for a response with status 204 or 205, or with an empty or
whitespace-only body, the `'json'` parser resolves to `undefined` without
attempting `JSON.parse`; and the public `json`, `get`, `post`, `put`,
`patch`, `del` and `safeJson` operations all use the `'json'` parser. -/
theorem claim_c10_json_parser_empty_body_undefined
    (status : Nat) (body : String)
    (h : status = 204 ∨ status = 205 ∨ body.trim = "") :
    parseResponseJson status body = .undef ∧
    opParser .opJson = .pjson ∧ opParser .opGet = .pjson ∧
    opParser .opPost = .pjson ∧ opParser .opPut = .pjson ∧
    opParser .opPatch = .pjson ∧ opParser .opDel = .pjson ∧
    opParser .opSafeJson = .pjson := by
  refine ⟨?_, rfl, rfl, rfl, rfl, rfl, rfl, rfl⟩
  rcases h with h | h | h
  · simp [parseResponseJson, h]
  · simp [parseResponseJson, h]
  · by_cases h45 : status = 204 ∨ status = 205
    · simp [parseResponseJson, h45]
    · simp [parseResponseJson, h45, h]

/-- Claim C2 amended: a failure thrown by the `beforeRequest` hook (the
transport not yet reached) or by the `afterResponse` hook (the transport
already invoked) is caught by the attempt loop and treated exactly like a
transport failure.  It propagates immediately — with no transport
invocation beyond the failing attempt's own — when it is classified as an
abort error, when no policy is active, or when the failing attempt is the
last; otherwise (non-abort error, active policy, attempts remaining, no
signal firing during the wait) the orchestrator records a backoff wait and
continues with the next attempt, so a hook failure CAN be followed by
further transport invocations. -/
theorem claim_c2_hook_failures_treated_as_attempt_failures
    (pol : Option RetryOptions) (now : ℚ) (total : Nat)
    (s : AttemptScript) (rest : List AttemptScript) (attempt : Nat)
    (stats : RunStats) (le : Option Err) (e : Err)
    (hatt : attempt ≤ total)
    (hhook : hookFailure s e)
    (hfw : s.fireDuringWait = none) :
    (isAbortError e = true →
      (loopGo pol now total (s :: rest) attempt stats le).1 = .failure e ∧
      (loopGo pol now total (s :: rest) attempt stats le).2.fetchCalls ≤
        stats.fetchCalls + 1) ∧
    (isAbortError e = false → (pol = none ∨ total ≤ attempt) →
      (loopGo pol now total (s :: rest) attempt stats le).1 = .failure e ∧
      (loopGo pol now total (s :: rest) attempt stats le).2.fetchCalls ≤
        stats.fetchCalls + 1) ∧
    (isAbortError e = false → ∀ P, pol = some P → attempt < total →
      loopGo pol now total (s :: rest) attempt stats le =
        loopGo pol now total rest (attempt + 1)
          (applyStep stats (stepAttempt pol now attempt total s)) (some e)) := by
  have hna : ¬ total < attempt := by omega
  rcases hhook with hb | ⟨hb, ⟨st0, ra0, hd⟩, ha⟩
  · refine ⟨?_, ?_, ?_⟩
    · intro habort
      constructor <;>
        simp [loopGo, if_neg hna, stepAttempt, hb, stepCatch, habort, toRunResult,
          applyStep, incClean]
    · intro habort hcase
      rcases hcase with hpol | htot
      · subst hpol
        constructor <;>
          simp [loopGo, if_neg hna, stepAttempt, hb, stepCatch, habort, toRunResult,
            applyStep, incClean]
      · cases pol with
        | none =>
          constructor <;>
            simp [loopGo, if_neg hna, stepAttempt, hb, stepCatch, habort, toRunResult,
              applyStep, incClean]
        | some P =>
          constructor <;>
            simp [loopGo, if_neg hna, stepAttempt, hb, stepCatch, habort, htot,
              toRunResult, applyStep, incClean]
    · intro habort P hP hlt
      subst hP
      have hnb : ¬ total ≤ attempt := by omega
      simp [loopGo, if_neg hna, stepAttempt, hb, stepCatch, habort, hnb, hfw,
        applyStep, Option.orElse]
  · refine ⟨?_, ?_, ?_⟩
    · intro habort
      constructor <;>
        simp [loopGo, if_neg hna, stepAttempt, hb, hd, ha, stepCatch, habort,
          toRunResult, applyStep, incClean]
    · intro habort hcase
      rcases hcase with hpol | htot
      · subst hpol
        constructor <;>
          simp [loopGo, if_neg hna, stepAttempt, hb, hd, ha, stepCatch, habort,
            toRunResult, applyStep, incClean]
      · cases pol with
        | none =>
          constructor <;>
            simp [loopGo, if_neg hna, stepAttempt, hb, hd, ha, stepCatch, habort,
              toRunResult, applyStep, incClean]
        | some P =>
          constructor <;>
            simp [loopGo, if_neg hna, stepAttempt, hb, hd, ha, stepCatch, habort,
              htot, toRunResult, applyStep, incClean]
    · intro habort P hP hlt
      subst hP
      have hnb : ¬ total ≤ attempt := by omega
      simp [loopGo, if_neg hna, stepAttempt, hb, hd, ha, stepCatch, habort, hnb,
        hfw, applyStep, Option.orElse]

/-- Witness for the amended C2, exercising the `afterResponse` case: the
hook throws a non-abort error on attempt 1 of 2, and the loop continues
with attempt 2 exactly as for a transport failure. -/
theorem claim_c2_hook_failures_treated_as_attempt_failures_witness :
    loopGo (some oneRetryPolicy) 0 2 [afterThrowScript, okScript] 1 ⟨0, 0, 0, []⟩ none =
      loopGo (some oneRetryPolicy) 0 2 [okScript] 2
        (applyStep ⟨0, 0, 0, []⟩ (stepAttempt (some oneRetryPolicy) 0 1 2 afterThrowScript))
        (some hookErr) :=
  (claim_c2_hook_failures_treated_as_attempt_failures (some oneRetryPolicy) 0 2
    afterThrowScript [okScript] 1 ⟨0, 0, 0, []⟩ none hookErr (by omega)
    (Or.inr ⟨rfl, ⟨200, .absent, rfl⟩, rfl⟩) rfl).2.2 (by decide) oneRetryPolicy rfl
    (by omega)

/-- Claim C3: if the composed cancellation signal fires during attempt N's
transport call or during the backoff wait after attempt N, the attempt
loop terminates at attempt N with a propagated abort failure (either the
composed signal's reason — thrown by the transport — or the `AbortError`
thrown by the cancellable `sleep`), and attempt N+1 is never started: at
most one transport invocation (attempt N's own) is added.  Cancellation is
never retried, even when `attempt < totalAttempts`. -/
theorem claim_c3_cancellation_never_retried
    (P : RetryOptions) (now : ℚ) (s : AttemptScript) (rest : List AttemptScript)
    (attempt : Nat) (stats : RunStats) (le : Option Err) (ev : FireEvent)
    (hatt : attempt ≤ P.retries + 1)
    (hfires : firesInAttempt P attempt (P.retries + 1) s ev) :
    ((loopGo (some P) now (P.retries + 1) (s :: rest) attempt stats le).1 =
        .failure abortErr ∨
     (loopGo (some P) now (P.retries + 1) (s :: rest) attempt stats le).1 =
        .failure (reasonOf ev)) ∧
    (loopGo (some P) now (P.retries + 1) (s :: rest) attempt stats le).2.fetchCalls ≤
      stats.fetchCalls + 1 := by
  have hna : ¬ P.retries + 1 < attempt := by omega
  rcases hfires with ⟨hb, hd⟩ | ⟨hw, hlt, hcase⟩
  · by_cases habort : isAbortError (reasonOf ev) = true
    · constructor
      · right
        simp [loopGo, if_neg hna, stepAttempt, hb, hd, stepCatch, habort, toRunResult]
      · simp [loopGo, if_neg hna, stepAttempt, hb, hd, stepCatch, habort,
          applyStep, incClean]
    · have habort' : isAbortError (reasonOf ev) = false := by
        cases h : isAbortError (reasonOf ev) <;> simp_all
      by_cases hend : P.retries + 1 ≤ attempt
      · constructor
        · right
          simp [loopGo, if_neg hna, stepAttempt, hb, hd, stepCatch, habort', hend,
            toRunResult]
        · simp [loopGo, if_neg hna, stepAttempt, hb, hd, stepCatch, habort', hend,
            applyStep, incClean]
      · constructor
        · left
          simp [loopGo, if_neg hna, stepAttempt, hb, hd, stepCatch, habort', hend,
            toRunResult]
        · simp [loopGo, if_neg hna, stepAttempt, hb, hd, stepCatch, habort', hend,
            applyStep, incClean]
  · have hnend : ¬ P.retries + 1 ≤ attempt := by omega
    rcases hcase with ⟨hb, ha, st0, ra0, hd, hok, hmem⟩ | ⟨hb, e, hd, he⟩ |
      ⟨hb, ⟨st0, ra0, hd⟩, e, ha, he⟩ | ⟨e, hb, he⟩
    · constructor
      · left
        simp [loopGo, if_neg hna, stepAttempt, hb, hd, ha, hok, hmem, hlt, hw,
          toRunResult]
      · simp [loopGo, if_neg hna, stepAttempt, hb, hd, ha, hok, hmem, hlt, hw,
          applyStep, incClean]
    · constructor
      · left
        simp [loopGo, if_neg hna, stepAttempt, hb, hd, stepCatch, he, hnend, hw,
          toRunResult]
      · simp [loopGo, if_neg hna, stepAttempt, hb, hd, stepCatch, he, hnend, hw,
          applyStep, incClean]
    · constructor
      · left
        simp [loopGo, if_neg hna, stepAttempt, hb, hd, ha, stepCatch, he, hnend, hw,
          toRunResult]
      · simp [loopGo, if_neg hna, stepAttempt, hb, hd, ha, stepCatch, he, hnend, hw,
          applyStep, incClean]
    · constructor
      · left
        simp [loopGo, if_neg hna, stepAttempt, hb, stepCatch, he, hnend, hw,
          toRunResult]
      · simp [loopGo, if_neg hna, stepAttempt, hb, stepCatch, he, hnend, hw,
          applyStep, incClean]

/-- Witness for C3: the timeout fires during the backoff wait after a
retryable 503 on attempt 1 of 2; the loop propagates the abort failure
without starting attempt 2. -/
theorem claim_c3_cancellation_never_retried_witness :
    ((loopGo (some oneRetryPolicy) 0 (oneRetryPolicy.retries + 1)
        [timeoutDuringWaitScript] 1 ⟨0, 0, 1, []⟩ none).1 = .failure abortErr ∨
     (loopGo (some oneRetryPolicy) 0 (oneRetryPolicy.retries + 1)
        [timeoutDuringWaitScript] 1 ⟨0, 0, 1, []⟩ none).1 =
        .failure (reasonOf .timeoutFire)) ∧
    (loopGo (some oneRetryPolicy) 0 (oneRetryPolicy.retries + 1)
        [timeoutDuringWaitScript] 1 ⟨0, 0, 1, []⟩ none).2.fetchCalls ≤
      (⟨0, 0, 1, []⟩ : RunStats).fetchCalls + 1 :=
  claim_c3_cancellation_never_retried oneRetryPolicy 0 timeoutDuringWaitScript []
    1 ⟨0, 0, 1, []⟩ none .timeoutFire (by decide)
    (Or.inr ⟨rfl, by decide, Or.inl ⟨rfl, rfl, 503, .absent, rfl, by decide, by decide⟩⟩)

/-- Claim C4 amended: the transport primitive is invoked at most
`retries + 1` times per logical request; and with `retries = 0` exactly
one transport invocation occurs whenever the attempt's transport call is
reached (the pre-attempt hook does not throw) — a pre-attempt hook failure
yields zero transport invocations (see the counterexample). -/
theorem claim_c4_transport_invocation_bound
    (defT : Option ℚ) (bp : Bool) (effT : Option ℚ) (pol : Option RetryOptions)
    (now : ℚ) (scripts : List AttemptScript) :
    (requestWithRetry defT bp effT pol now scripts).2.fetchCalls ≤
      (match pol with | some P => P.retries | none => 0) + 1 ∧
    (∀ P s rest, pol = some P → P.retries = 0 → scripts = s :: rest →
      s.beforeThrows = none →
      (requestWithRetry defT bp effT pol now scripts).2.fetchCalls = 1) := by
  constructor
  · obtain ⟨f, c, w, h, hf⟩ := requestWithRetry_stats_shape defT bp effT pol now scripts
    rw [h]
    exact hf
  · intro P s rest hP h0 hs hb
    subst hP
    subst hs
    have h1 : (match (some P : Option RetryOptions) with
        | some Q => Q.retries | none => 0) + 1 = 1 := by simp [h0]
    simp only [requestWithRetry, h1]
    cases hd : s.duringFetch with
    | completes st ra =>
      cases ha : s.afterThrows with
      | none =>
        simp [loopGo, stepAttempt, hb, hd, ha, applyStep, incClean]
      | some e =>
        by_cases habort : isAbortError e = true
        · simp [loopGo, stepAttempt, hb, hd, ha, stepCatch, habort, applyStep, incClean]
        · have habort' : isAbortError e = false := by
            cases hx : isAbortError e <;> simp_all
          simp [loopGo, stepAttempt, hb, hd, ha, stepCatch, habort', applyStep, incClean]
    | netError e =>
      by_cases habort : isAbortError e = true
      · simp [loopGo, stepAttempt, hb, hd, stepCatch, habort, applyStep, incClean]
      · have habort' : isAbortError e = false := by
          cases hx : isAbortError e <;> simp_all
        simp [loopGo, stepAttempt, hb, hd, stepCatch, habort', applyStep, incClean]
    | signalFires ev =>
      by_cases habort : isAbortError (reasonOf ev) = true
      · simp [loopGo, stepAttempt, hb, hd, stepCatch, habort, applyStep, incClean]
      · have habort' : isAbortError (reasonOf ev) = false := by
          cases hx : isAbortError (reasonOf ev) <;> simp_all
        simp [loopGo, stepAttempt, hb, hd, stepCatch, habort', applyStep, incClean]

/-- Witness for the amended C4: with `retries = 0` and a reached transport
call, exactly one invocation occurs. -/
theorem claim_c4_transport_invocation_bound_witness :
    (requestWithRetry none false none (some zeroRetryPolicy) 0 [okScript]).2.fetchCalls = 1 :=
  (claim_c4_transport_invocation_bound none false none (some zeroRetryPolicy) 0
    [okScript]).2 zeroRetryPolicy okScript [] rfl rfl rfl rfl

/-- Claim C5: the timeout timer is started at most once per logical
request — the final timer count equals the count fixed by `composeSignal`
before attempt 1, for every script — and the single composed signal gates
the inter-attempt waits: a timeout firing during the backoff wait after a
retryable response aborts the wait and terminates the run with the abort
failure instead of letting the wait complete. -/
theorem claim_c5_single_timer_cumulative_budget
    (defT : Option ℚ) (bp : Bool) (effT : Option ℚ) (pol : Option RetryOptions)
    (now : ℚ) (scripts : List AttemptScript) :
    (requestWithRetry defT bp effT pol now scripts).2.timerStarts =
      (if (composeSignalModel bp (effT.orElse fun _ => defT)).timerStarted then 1 else 0) ∧
    (∀ P s rest st ra, pol = some P → scripts = s :: rest →
      s.beforeThrows = none → s.duringFetch = .completes st ra → s.afterThrows = none →
      isOkStatus st = false → st ∈ P.statusCodes → 0 < P.retries →
      s.fireDuringWait = some .timeoutFire →
      (requestWithRetry defT bp effT pol now scripts).1 = .failure abortErr) := by
  constructor
  · obtain ⟨f, c, w, h, _⟩ := requestWithRetry_stats_shape defT bp effT pol now scripts
    rw [h]
  · intro P s rest st ra hP hs hb hd ha hok hmem hret hw
    subst hP
    subst hs
    have hna : ¬ (P.retries + 1 < 1) := by omega
    have hlt : 1 < P.retries + 1 := by omega
    simp [requestWithRetry, loopGo, if_neg hna, stepAttempt, hb, hd, ha, hok,
      hmem, hlt, hw, toRunResult]

/-- Witness for C5: concrete run with a 5 ms timeout whose timer fires
during the backoff wait after a retryable 503. -/
theorem claim_c5_single_timer_cumulative_budget_witness :
    (requestWithRetry (some 5) false none (some oneRetryPolicy) 0
      [timeoutDuringWaitScript, okScript]).1 = .failure abortErr :=
  (claim_c5_single_timer_cumulative_budget (some 5) false none (some oneRetryPolicy) 0
    [timeoutDuringWaitScript, okScript]).2 oneRetryPolicy timeoutDuringWaitScript
    [okScript] 503 .absent rfl rfl rfl rfl rfl (by decide) (by decide) (by decide) rfl

/-- Claim C6 amended: `resolveRetry` uppercases the resolved method and
compares it case-SENSITIVELY against the policy's `methods` entries, and
it skips method gating altogether when the `methods` list is empty (both
divergences from the claimed case-insensitive membership test are
exhibited in the counterexample); nevertheless, whenever the resolved
`methods` list is nonempty and the normalized method is not a member under
the case-insensitive comparison, the policy is treated as absent for the
request and exactly one transport invocation occurs, with the response
returned as-is, even when its status would have been retryable. -/
theorem claim_c6_method_gating_single_attempt
    (defR reqR : Option RetrySetting) (m : Option String) (src : RetrySetting)
    (hsrc : sourceOf defR reqR = some src)
    (hne : (mergedBase src).methods ≠ [])
    (hci : specCiMember (normalizeMethod m) (mergedBase src).methods = false)
    (defT : Option ℚ) (bp : Bool) (effT : Option ℚ) (now : ℚ)
    (s : AttemptScript) (rest : List AttemptScript) (st : Nat) (ra : RetryAfterValue)
    (hb : s.beforeThrows = none) (hd : s.duringFetch = .completes st ra)
    (ha : s.afterThrows = none) :
    resolveRetry defR m reqR = none ∧
    (requestWithRetry defT bp effT (resolveRetry defR m reqR) now (s :: rest)).1 =
      .success st ∧
    (requestWithRetry defT bp effT (resolveRetry defR m reqR) now
      (s :: rest)).2.fetchCalls = 1 := by
  have hnm : normalizeMethod m ∉ (mergedBase src).methods :=
    specCiMember_false_not_mem _ _ hci
  have h1 : resolveRetry defR m reqR = none := by
    unfold resolveRetry
    rw [hsrc]
    by_cases hfal : falsySetting src = true
    · simp [hfal]
    · have hfal' : falsySetting src = false := by
        cases hx : falsySetting src <;> simp_all
      simp [hfal', hne, hnm]
  refine ⟨h1, ?_, ?_⟩
  · rw [h1]
    simp [requestWithRetry, loopGo, stepAttempt, hb, hd, ha, toRunResult]
  · rw [h1]
    simp [requestWithRetry, loopGo, stepAttempt, hb, hd, ha, applyStep, incClean]

/-- Witness for the amended C6: a `POST` request against the default
`["GET", "HEAD"]` method list resolves to no policy and performs exactly
one transport invocation although the 503 status is retryable. -/
theorem claim_c6_method_gating_single_attempt_witness :
    resolveRetry none (some "POST") (some (.bool true)) = none ∧
    (requestWithRetry none false none
      (resolveRetry none (some "POST") (some (.bool true))) 0
      [⟨none, .completes 503 .absent, none, none, 0⟩]).1 = .success 503 ∧
    (requestWithRetry none false none
      (resolveRetry none (some "POST") (some (.bool true))) 0
      [⟨none, .completes 503 .absent, none, none, 0⟩]).2.fetchCalls = 1 :=
  claim_c6_method_gating_single_attempt none (some (.bool true)) (some "POST")
    (.bool true) rfl (by decide) (by decide) none false none 0
    ⟨none, .completes 503 .absent, none, none, 0⟩ [] 503 .absent rfl rfl rfl

/-- Claim C7 amended: with `jitter = 0` the delay for attempt `k` equals
`min(maxDelay, minDelay × factor^(k−1))` exactly; with `0 < jitter ≤ 1`
the delay is an integer, non-negative, at most `raw × (1 + jitter)`, and
strictly greater than `raw × (1 − jitter) − 1` — the flooring can place it
up to one millisecond BELOW the claimed lower bound `raw × (1 − jitter)`
(see the counterexample). -/
theorem claim_c7_backoff_delay_bounds
    (k : Nat) (P : RetryOptions) (rand : ℚ)
    (_hk : 1 ≤ k) (hmin : 0 ≤ P.minDelay) (hmm : P.minDelay ≤ P.maxDelay)
    (hfa : 1 ≤ P.factor) (hr0 : 0 ≤ rand) (hr1 : rand < 1) :
    (P.jitter = 0 →
      backoffDelay k P rand = min P.maxDelay (P.minDelay * P.factor ^ (k - 1))) ∧
    (0 < P.jitter → P.jitter ≤ 1 →
      (∃ z : ℤ, backoffDelay k P rand = (z : ℚ)) ∧
      0 ≤ backoffDelay k P rand ∧
      min P.maxDelay (P.minDelay * P.factor ^ (k - 1)) * (1 - P.jitter) - 1 <
        backoffDelay k P rand ∧
      backoffDelay k P rand ≤
        min P.maxDelay (P.minDelay * P.factor ^ (k - 1)) * (1 + P.jitter)) := by
  set raw := min P.maxDelay (P.minDelay * P.factor ^ (k - 1)) with hraw_def
  have hraw : 0 ≤ raw :=
    le_min (hmin.trans hmm)
      (mul_nonneg hmin (pow_nonneg (le_trans zero_le_one hfa) _))
  constructor
  · intro hj
    simp [backoffDelay, hj, ← hraw_def]
  · intro hj0 hj1
    have hjne : ¬ (P.jitter = 0) := ne_of_gt hj0
    have hbd : backoffDelay k P rand =
        ((⌊(raw - raw * P.jitter) +
            rand * ((raw + raw * P.jitter) - (raw - raw * P.jitter))⌋ : ℤ) : ℚ) := by
      simp [backoffDelay, hjne, ← hraw_def]
    set x := (raw - raw * P.jitter) +
      rand * ((raw + raw * P.jitter) - (raw - raw * P.jitter)) with hx
    have hj_nn : (0:ℚ) ≤ raw * P.jitter := mul_nonneg hraw hj0.le
    have hxlo : raw * (1 - P.jitter) ≤ x := by
      have := mul_nonneg hr0 (by linarith : (0:ℚ) ≤ (raw + raw * P.jitter) - (raw - raw * P.jitter))
      nlinarith
    have hxhi : x ≤ raw * (1 + P.jitter) := by
      have := mul_nonneg (by linarith : (0:ℚ) ≤ 1 - rand)
        (by linarith : (0:ℚ) ≤ (raw + raw * P.jitter) - (raw - raw * P.jitter))
      nlinarith
    have hx0 : (0:ℚ) ≤ x := by
      have := mul_nonneg hraw (by linarith : (0:ℚ) ≤ 1 - P.jitter)
      linarith
    refine ⟨⟨⌊x⌋, hbd⟩, ?_, ?_, ?_⟩
    · rw [hbd]
      exact_mod_cast Int.le_floor.mpr (by exact_mod_cast hx0)
    · rw [hbd]
      have h2 : x - 1 < ((⌊x⌋ : ℤ) : ℚ) := Int.sub_one_lt_floor x
      linarith
    · rw [hbd]
      have h3 : ((⌊x⌋ : ℤ) : ℚ) ≤ x := Int.floor_le x
      linarith

/-- Witness for the amended C7: with zero jitter the delay for attempt 3
is exactly the capped exponential value. -/
theorem claim_c7_backoff_delay_bounds_witness :
    backoffDelay 3 oneRetryPolicy (1/2) =
      min oneRetryPolicy.maxDelay (oneRetryPolicy.minDelay * oneRetryPolicy.factor ^ (3 - 1)) :=
  (claim_c7_backoff_delay_bounds 3 oneRetryPolicy (1/2) (by norm_num)
    (by norm_num [oneRetryPolicy]) (by norm_num [oneRetryPolicy])
    (by norm_num [oneRetryPolicy]) (by norm_num) (by norm_num)).1 rfl

/-- Claim C8: `parseRetryAfter` maps an absent or unparseable header to
`undefined`, a numeric value to `max 0 (secs × 1000)` milliseconds, and an
HTTP date to `max 0 (date − now)` milliseconds; and whenever
`respectRetryAfterHeader` is `true` and a parseable hint is present on a
retryable non-ok response with attempts remaining, the first inter-attempt
wait duration equals the parsed hint, not the computed backoff. -/
theorem claim_c8_retry_after_hint
    (P : RetryOptions) (now hint : ℚ) (ra : RetryAfterValue) (st : Nat)
    (s : AttemptScript) (rest : List AttemptScript)
    (defT : Option ℚ) (bp : Bool) (effT : Option ℚ)
    (hresp : P.respectRetryAfterHeader = true) (hret : 0 < P.retries)
    (hparse : parseRetryAfter ra now = some hint)
    (hok : isOkStatus st = false) (hmem : st ∈ P.statusCodes)
    (hb : s.beforeThrows = none) (hd : s.duringFetch = .completes st ra)
    (ha : s.afterThrows = none) :
    (∀ q t, parseRetryAfter .absent t = none ∧
      parseRetryAfter .unparseable t = none ∧
      parseRetryAfter (.numeric q) t = some (max 0 (q * 1000)) ∧
      parseRetryAfter (.httpDate q) t = some (max 0 (q - t))) ∧
    (requestWithRetry defT bp effT (some P) now (s :: rest)).2.waits.head? =
      some hint := by
  refine ⟨fun q t => ⟨rfl, rfl, rfl, rfl⟩, ?_⟩
  have hna : ¬ (P.retries + 1 < 1) := by omega
  have hlt : 1 < P.retries + 1 := by omega
  have hw : (stepAttempt (some P) now 1 (P.retries + 1) s).wait = some hint := by
    by_cases hfw : s.fireDuringWait.isSome <;>
      simp [stepAttempt, hb, hd, ha, hok, hmem, hlt, hresp, hparse, hfw]
  simp only [requestWithRetry]
  exact loopGo_first_wait (some P) now (P.retries + 1) s rest 1 _ none hint hna hw rfl

/-- Witness for C8: a numeric Retry-After hint of 2 seconds on a 503 makes
the first wait 2000 ms. -/
theorem claim_c8_retry_after_hint_witness :
    (requestWithRetry none false none (some hintPolicy) 0
      [hintScript, okScript]).2.waits.head? = some 2000 :=
  (claim_c8_retry_after_hint hintPolicy 0 2000 (.numeric 2) 503 hintScript [okScript]
    none false none rfl (by decide) (by norm_num [parseRetryAfter]) (by decide)
    (by decide) rfl rfl rfl).2

/-- Witness for C10 at a concrete input: a 204 response parses to
`undefined`. -/
theorem claim_c10_json_parser_empty_body_undefined_witness :
    (204 = 204 ∨ 204 = 205 ∨ ("x" : String).trim = "") ∧
    parseResponseJson 204 "x" = .undef :=
  ⟨Or.inl rfl, (claim_c10_json_parser_empty_body_undefined 204 "x" (Or.inl rfl)).1⟩
